import Mathlib

/-!
Verification of the matching / reconciliation core of the
MS-Photos-Legacy → Immich migration tool.

The Lean definitions below are a shallow embedding of the frontend's pure
computation kernels (threshold filtering, pair aggregation, confidence
breakdown, the bulk-apply executor loop, the applied-changes bookkeeping
and its localStorage persistence, and the pixel-coordinate translation of
create-face requests).  Numbers that are IEEE doubles in the source are
modelled as rationals; JS `Set`/`Map` are modelled as `Finset` /
insertion-ordered association lists.
-/

namespace MsPhotosToImmich

/-- Raw per-photo face correspondence as delivered by the analysis endpoint
(`RawFaceMatch` in `types.ts`). -/
structure RawFaceMatch where
  ms_person_id : ℕ
  ms_person_name : String
  immich_cluster_id : String
  immich_cluster_name : Option String
  iou : ℚ
  center_dist : ℚ
  filename : String
deriving DecidableEq

/-- Predicate of the Analytics-tab preview filter: the body of the lambda in
`rawMatches.filter(m => m.iou >= pendingMinIoU && m.center_dist <= pendingMaxCenterDist)`. -/
def passesThresholds (pendingMinIoU pendingMaxCenterDist : ℚ) (m : RawFaceMatch) : Bool :=
  decide (pendingMinIoU ≤ m.iou) && decide (m.center_dist ≤ pendingMaxCenterDist)

/-- Analytics tab `filteredMatches`: raw matches filtered by the pending thresholds. -/
def filteredMatches (rawMatches : List RawFaceMatch)
    (pendingMinIoU pendingMaxCenterDist : ℚ) : List RawFaceMatch :=
  rawMatches.filter (passesThresholds pendingMinIoU pendingMaxCenterDist)

/-- Entry of the Analytics tab `aggregatedMatches` map (one per
(ms_person_id, immich_cluster_id) pair). -/
structure PairAggregate where
  ms_person_name : String
  immich_cluster_name : Option String
  count : ℕ
  avg_iou : ℚ
  avg_center_dist : ℚ
deriving DecidableEq

/-- Confidence test used for the `high` bucket:
`m.count >= 5 && m.avg_iou >= 0.4`. -/
def isHighConfidence (m : PairAggregate) : Bool :=
  decide (5 ≤ m.count) && decide ((0.4 : ℚ) ≤ m.avg_iou)

/-- Confidence test used for the `medium` bucket:
`m.count >= 2 && m.avg_iou >= 0.35 && !(m.count >= 5 && m.avg_iou >= 0.4)`. -/
def isMediumConfidence (m : PairAggregate) : Bool :=
  decide (2 ≤ m.count) && decide ((0.35 : ℚ) ≤ m.avg_iou) && !(isHighConfidence m)

/-- Aggregates that fall in neither the high nor the medium bucket ("low otherwise"). -/
def isLowConfidence (m : PairAggregate) : Bool :=
  !(isHighConfidence m) && !(isMediumConfidence m)

/-- Analytics tab `confidenceBreakdown`: counts of high / medium aggregates by
filtering, low by subtraction (`aggregatedMatches.length - high - medium`). -/
def confidenceBreakdown (aggregated : List PairAggregate) : ℕ × ℕ × ℕ :=
  let high := (aggregated.filter isHighConfidence).length
  let medium := (aggregated.filter isMediumConfidence).length
  (high, medium, aggregated.length - high - medium)

lemma length_filter_partition3 (p q : PairAggregate → Bool) (l : List PairAggregate)
    (hpq : ∀ a, (p a && q a) = false) :
    (l.filter p).length + (l.filter q).length
      + (l.filter fun a => !(p a) && !(q a)).length = l.length := by
  induction l with
  | nil => simp
  | cons a t ih =>
    have ha := hpq a
    cases hp : p a <;> cases hq : q a <;>
      simp [List.filter_cons, hp, hq] at ha ⊢ <;> omega

/-- C1: a raw face match passes the Analytics-tab threshold filter iff
`iou ≥ pendingMinIoU` and `center_dist ≤ pendingMaxCenterDist`; a match whose
`iou` equals the threshold passes (given the distance bound), one whose `iou`
is any `ε > 0` below it fails; and `filteredMatches` contains exactly the raw
matches satisfying the predicate. -/
theorem filteredMatches_mem_iff (rawMatches : List RawFaceMatch)
    (pendingMinIoU pendingMaxCenterDist ε : ℚ) (m : RawFaceMatch) (hε : 0 < ε) :
    (passesThresholds pendingMinIoU pendingMaxCenterDist m = true ↔
        pendingMinIoU ≤ m.iou ∧ m.center_dist ≤ pendingMaxCenterDist)
    ∧ (m.iou = pendingMinIoU → m.center_dist ≤ pendingMaxCenterDist →
        passesThresholds pendingMinIoU pendingMaxCenterDist m = true)
    ∧ (m.iou = pendingMinIoU - ε →
        passesThresholds pendingMinIoU pendingMaxCenterDist m = false)
    ∧ (∀ x, x ∈ filteredMatches rawMatches pendingMinIoU pendingMaxCenterDist ↔
        x ∈ rawMatches ∧ pendingMinIoU ≤ x.iou ∧ x.center_dist ≤ pendingMaxCenterDist) := by
  refine ⟨?_, ?_, ?_, ?_⟩
  · simp [passesThresholds]
  · intro h1 h2
    simp [passesThresholds, h1, h2]
  · intro h1
    have : ¬ pendingMinIoU ≤ m.iou := by
      rw [h1]
      intro hcon
      linarith
    simp [passesThresholds, this]
  · intro x
    simp [filteredMatches, List.mem_filter, passesThresholds, and_assoc]

theorem filteredMatches_mem_iff_witness :
    (0 : ℚ) < 1 ∧
      (passesThresholds (3/10) (2/5)
          ⟨1, "Alice", "c1", none, 3/10, 1/5, "p.jpg"⟩ = true ↔
        (3/10 : ℚ) ≤ 3/10 ∧ (1/5 : ℚ) ≤ 2/5) ∧ True :=
  ⟨one_pos,
    (filteredMatches_mem_iff [] (3/10) (2/5) 1
      ⟨1, "Alice", "c1", none, 3/10, 1/5, "p.jpg"⟩ one_pos).1, trivial⟩

/-- C2: the confidence classification of pair aggregates is a partition into
three disjoint classes — `high` iff count ≥ 5 and mean IoU ≥ 0.40, `medium`
iff not high and count ≥ 2 and mean IoU ≥ 0.35, `low` otherwise — and the
three counts computed by `confidenceBreakdown` sum to the number of
aggregates, the low count being exactly the number of aggregates in neither
of the first two classes. -/
theorem confidenceBreakdown_partition (aggregated : List PairAggregate) :
    (∀ a, isHighConfidence a = true ↔ 5 ≤ a.count ∧ (0.4 : ℚ) ≤ a.avg_iou)
    ∧ (∀ a, isMediumConfidence a = true ↔
        isHighConfidence a = false ∧ 2 ≤ a.count ∧ (0.35 : ℚ) ≤ a.avg_iou)
    ∧ (∀ a, isLowConfidence a = true ↔
        isHighConfidence a = false ∧ isMediumConfidence a = false)
    ∧ (∀ a, (isHighConfidence a && isMediumConfidence a) = false)
    ∧ (confidenceBreakdown aggregated).1 = (aggregated.filter isHighConfidence).length
    ∧ (confidenceBreakdown aggregated).2.1 = (aggregated.filter isMediumConfidence).length
    ∧ (confidenceBreakdown aggregated).2.2 = (aggregated.filter isLowConfidence).length
    ∧ (confidenceBreakdown aggregated).1 + (confidenceBreakdown aggregated).2.1
        + (confidenceBreakdown aggregated).2.2 = aggregated.length := by
  have hdisj : ∀ a, (isHighConfidence a && isMediumConfidence a) = false := by
    intro a
    cases hh : isHighConfidence a <;> simp [isMediumConfidence, hh]
  have hpart := length_filter_partition3 isHighConfidence isMediumConfidence aggregated hdisj
  have hlowf : (aggregated.filter fun a => !(isHighConfidence a) && !(isMediumConfidence a))
      = aggregated.filter isLowConfidence := rfl
  rw [hlowf] at hpart
  refine ⟨?_, ?_, ?_, hdisj, rfl, rfl, ?_, ?_⟩
  · intro a
    simp [isHighConfidence]
  · intro a
    cases hh : isHighConfidence a <;>
      simp [isMediumConfidence, hh, and_comm]
  · intro a
    simp [isLowConfidence]
  · simp only [confidenceBreakdown]
    omega
  · simp only [confidenceBreakdown]
    omega

/-- Grouping key of the Analytics-tab aggregation: the template string
`${match.ms_person_id}-${match.immich_cluster_id}` is injective in the two
components, so it is modelled by the pair itself. -/
def matchKey (m : RawFaceMatch) : ℕ × String :=
  (m.ms_person_id, m.immich_cluster_id)

/-- Fresh map entry created for the first match of a pair. -/
def initAggregate (m : RawFaceMatch) : PairAggregate :=
  { ms_person_name := m.ms_person_name
    immich_cluster_name := m.immich_cluster_name
    count := 1
    avg_iou := m.iou
    avg_center_dist := m.center_dist }

/-- Incremental update of an existing map entry:
`existing.count++` then `avg = (avg * (count - 1) + x) / count`. -/
def updateAggregate (existing : PairAggregate) (m : RawFaceMatch) : PairAggregate :=
  let count := existing.count + 1
  { existing with
    count := count
    avg_iou := (existing.avg_iou * ((count : ℚ) - 1) + m.iou) / (count : ℚ)
    avg_center_dist :=
      (existing.avg_center_dist * ((count : ℚ) - 1) + m.center_dist) / (count : ℚ) }

/-- One step of the `for (const match of filteredMatches)` loop over the
insertion-ordered `Map`, modelled as an association list: update the entry in
place when the key exists, append a fresh entry otherwise. -/
def insertMatch : List ((ℕ × String) × PairAggregate) → RawFaceMatch →
    List ((ℕ × String) × PairAggregate)
  | [], m => [(matchKey m, initAggregate m)]
  | (k, a) :: rest, m =>
    if k = matchKey m then (k, updateAggregate a m) :: rest
    else (k, a) :: insertMatch rest m

/-- The grouped `Map` after the whole loop of `aggregatedMatches`. -/
def aggregatedGroups (ms : List RawFaceMatch) : List ((ℕ × String) × PairAggregate) :=
  ms.foldl insertMatch []

/-- Analytics tab `aggregatedMatches`: the map's values sorted by descending
count (`(a, b) => b.count - a.count`). -/
def aggregatedMatches (ms : List RawFaceMatch) : List PairAggregate :=
  ((aggregatedGroups ms).map Prod.snd).mergeSort fun a b => decide (b.count ≤ a.count)

/-- Key membership in the association list. -/
def containsKey (l : List ((ℕ × String) × PairAggregate)) (k : ℕ × String) : Bool :=
  l.any fun p => decide (p.1 = k)

/-- Sub-list of the matches carrying a given grouping key. -/
def groupOf (k : ℕ × String) (ms : List RawFaceMatch) : List RawFaceMatch :=
  ms.filter fun m => decide (matchKey m = k)

lemma insertMatch_cons_eq {k : ℕ × String} {a : PairAggregate}
    {rest : List ((ℕ × String) × PairAggregate)} {m : RawFaceMatch}
    (h : k = matchKey m) :
    insertMatch ((k, a) :: rest) m = (k, updateAggregate a m) :: rest := by
  simp [insertMatch, h]

lemma insertMatch_cons_ne {k : ℕ × String} {a : PairAggregate}
    {rest : List ((ℕ × String) × PairAggregate)} {m : RawFaceMatch}
    (h : ¬ k = matchKey m) :
    insertMatch ((k, a) :: rest) m = (k, a) :: insertMatch rest m := by
  simp [insertMatch, h]

lemma insertMatch_mem_of_ne {l : List ((ℕ × String) × PairAggregate)}
    {m : RawFaceMatch} {k : ℕ × String} {a : PairAggregate} (hk : k ≠ matchKey m) :
    (k, a) ∈ insertMatch l m ↔ (k, a) ∈ l := by
  induction l with
  | nil => simp [insertMatch, Prod.ext_iff, hk]
  | cons p rest ih =>
    obtain ⟨k', a'⟩ := p
    by_cases h : k' = matchKey m
    · subst h
      rw [insertMatch_cons_eq rfl]
      simp [Prod.ext_iff, hk]
    · rw [insertMatch_cons_ne h]
      simp [List.mem_cons, ih]

lemma insertMatch_mem_fresh {l : List ((ℕ × String) × PairAggregate)}
    {m : RawFaceMatch} (hc : containsKey l (matchKey m) = false) (a : PairAggregate) :
    (matchKey m, a) ∈ insertMatch l m ↔ a = initAggregate m := by
  induction l with
  | nil => simp [insertMatch]
  | cons p rest ih =>
    obtain ⟨k', a'⟩ := p
    simp only [containsKey, List.any_cons, Bool.or_eq_false_iff,
      decide_eq_false_iff_not] at hc
    obtain ⟨hne, hrest⟩ := hc
    have hne2 : matchKey m ≠ k' := fun hh => hne hh.symm
    rw [insertMatch_cons_ne hne]
    have ihr := ih (by simpa [containsKey] using hrest)
    simp [List.mem_cons, Prod.ext_iff, hne2, ihr]

lemma insertMatch_mem_update {l : List ((ℕ × String) × PairAggregate)}
    {m : RawFaceMatch} {a0 : PairAggregate} (hnd : (l.map Prod.fst).Nodup)
    (h0 : (matchKey m, a0) ∈ l) (a : PairAggregate) :
    (matchKey m, a) ∈ insertMatch l m ↔ a = updateAggregate a0 m := by
  induction l with
  | nil => cases h0
  | cons p rest ih =>
    obtain ⟨k', a'⟩ := p
    simp only [List.map_cons, List.nodup_cons] at hnd
    obtain ⟨hk', hrest⟩ := hnd
    by_cases h : k' = matchKey m
    · subst h
      have ha0 : a0 = a' := by
        rcases List.mem_cons.mp h0 with h1 | h1
        · exact congrArg Prod.snd h1
        · exact absurd (List.mem_map_of_mem Prod.fst h1) hk'
      subst ha0
      rw [insertMatch_cons_eq rfl]
      have hnr : ∀ b : PairAggregate, (matchKey m, b) ∉ rest :=
        fun b hb => hk' (List.mem_map_of_mem Prod.fst hb)
      simp [List.mem_cons, Prod.ext_iff, hnr a]
    · have hne2 : matchKey m ≠ k' := fun hh => h hh.symm
      have h0' : (matchKey m, a0) ∈ rest := by
        rcases List.mem_cons.mp h0 with h1 | h1
        · exact absurd (congrArg Prod.fst h1) hne2
        · exact h1
      rw [insertMatch_cons_ne h]
      simp [List.mem_cons, Prod.ext_iff, hne2, ih hrest h0']

lemma insertMatch_map_fst (l : List ((ℕ × String) × PairAggregate)) (m : RawFaceMatch) :
    (insertMatch l m).map Prod.fst =
      if containsKey l (matchKey m) then l.map Prod.fst
      else l.map Prod.fst ++ [matchKey m] := by
  induction l with
  | nil => simp [insertMatch, containsKey]
  | cons p rest ih =>
    obtain ⟨k', a'⟩ := p
    by_cases h : k' = matchKey m
    · subst h
      rw [insertMatch_cons_eq rfl]
      simp [containsKey]
    · rw [insertMatch_cons_ne h, List.map_cons, ih]
      have hcons : containsKey ((k', a') :: rest) (matchKey m) =
          containsKey rest (matchKey m) := by
        simp [containsKey, List.any_cons, h]
      rw [hcons]
      cases hc : containsKey rest (matchKey m) <;> simp [hc]

lemma containsKey_iff_exists (l : List ((ℕ × String) × PairAggregate)) (k : ℕ × String) :
    containsKey l k = true ↔ ∃ a, (k, a) ∈ l := by
  constructor
  · intro h
    simp only [containsKey, List.any_eq_true, decide_eq_true_eq] at h
    obtain ⟨⟨k', a⟩, hmem, hk⟩ := h
    subst hk
    exact ⟨a, hmem⟩
  · rintro ⟨a, ha⟩
    simp only [containsKey, List.any_eq_true, decide_eq_true_eq]
    exact ⟨(k, a), ha, rfl⟩

/-- Invariant of the aggregation loop: the association list has one entry per
key occurring in the processed prefix, keys are unique, and each entry's count
and (mean × count) agree with the processed prefix's group. -/
structure GroupsOk (processed : List RawFaceMatch)
    (l : List ((ℕ × String) × PairAggregate)) : Prop where
  keys_iff : ∀ k, containsKey l k = true ↔ groupOf k processed ≠ []
  keys_nodup : (l.map Prod.fst).Nodup
  stats : ∀ k a, (k, a) ∈ l →
    a.count = (groupOf k processed).length ∧ 0 < a.count ∧
    a.avg_iou * (a.count : ℚ) = ((groupOf k processed).map RawFaceMatch.iou).sum ∧
    a.avg_center_dist * (a.count : ℚ) =
      ((groupOf k processed).map RawFaceMatch.center_dist).sum

lemma groupOf_append_single (k : ℕ × String) (processed : List RawFaceMatch)
    (m : RawFaceMatch) :
    groupOf k (processed ++ [m]) =
      groupOf k processed ++ if matchKey m = k then [m] else [] := by
  simp only [groupOf, List.filter_append]
  congr 1
  by_cases h : matchKey m = k <;> simp [h]

lemma groupsOk_insert {processed : List RawFaceMatch}
    {l : List ((ℕ × String) × PairAggregate)} (m : RawFaceMatch)
    (hok : GroupsOk processed l) : GroupsOk (processed ++ [m]) (insertMatch l m) := by
  constructor
  · intro k
    rw [containsKey_iff_exists, groupOf_append_single]
    by_cases hk : k = matchKey m
    · subst hk
      simp only [if_pos rfl]
      constructor
      · intro _
        simp
      · intro _
        by_cases hc : containsKey l (matchKey m) = true
        · rw [containsKey_iff_exists] at hc
          obtain ⟨a0, ha0⟩ := hc
          exact ⟨updateAggregate a0 m,
            (insertMatch_mem_update hok.keys_nodup ha0 _).mpr rfl⟩
        · have hc' : containsKey l (matchKey m) = false := by
            cases h' : containsKey l (matchKey m)
            · rfl
            · exact absurd h' hc
          exact ⟨initAggregate m, (insertMatch_mem_fresh hc' _).mpr rfl⟩
    · have hif : (if matchKey m = k then [m] else []) = ([] : List RawFaceMatch) :=
        if_neg fun h => hk h.symm
      rw [hif, List.append_nil]
      constructor
      · rintro ⟨a, ha⟩
        rw [insertMatch_mem_of_ne hk] at ha
        exact (hok.keys_iff k).mp ((containsKey_iff_exists l k).mpr ⟨a, ha⟩)
      · intro hne
        obtain ⟨a, ha⟩ := (containsKey_iff_exists l k).mp ((hok.keys_iff k).mpr hne)
        exact ⟨a, (insertMatch_mem_of_ne hk).mpr ha⟩
  · rw [insertMatch_map_fst]
    by_cases hc : containsKey l (matchKey m) = true
    · rw [if_pos hc]
      exact hok.keys_nodup
    · have hc' : containsKey l (matchKey m) = false := by
        cases h' : containsKey l (matchKey m)
        · rfl
        · exact absurd h' hc
      rw [hc']
      rw [if_neg (by simp)]
      rw [List.nodup_append]
      refine ⟨hok.keys_nodup, List.nodup_singleton _, ?_⟩
      intro k hkmem
      simp only [List.mem_singleton]
      intro hkm
      subst hkm
      obtain ⟨⟨k', a⟩, hmem, hfst⟩ := List.mem_map.mp hkmem
      have hfst' : k' = matchKey m := hfst
      subst hfst'
      have : containsKey l (matchKey m) = true :=
        (containsKey_iff_exists l (matchKey m)).mpr ⟨a, hmem⟩
      rw [this] at hc'
      cases hc'
  · intro k a ha
    rw [groupOf_append_single]
    by_cases hk : k = matchKey m
    · subst hk
      rw [if_pos rfl]
      by_cases hc : containsKey l (matchKey m) = true
      · obtain ⟨a0, ha0⟩ := (containsKey_iff_exists l (matchKey m)).mp hc
        have ha' := (insertMatch_mem_update hok.keys_nodup ha0 a).mp ha
        subst ha'
        obtain ⟨hcount, hpos, hiou, hcd⟩ := hok.stats _ a0 ha0
        have hnz : ((a0.count : ℚ) + 1) ≠ 0 := by positivity
        refine ⟨?_, ?_, ?_, ?_⟩
        · simp [updateAggregate, hcount]
        · simp [updateAggregate]
        · simp only [updateAggregate, List.map_append, List.sum_append, List.map_cons,
            List.map_nil, List.sum_cons, List.sum_nil, add_zero]
          push_cast
          rw [div_mul_cancel₀ _ (by positivity)]
          rw [← hiou]
          ring
        · simp only [updateAggregate, List.map_append, List.sum_append, List.map_cons,
            List.map_nil, List.sum_cons, List.sum_nil, add_zero]
          push_cast
          rw [div_mul_cancel₀ _ (by positivity)]
          rw [← hcd]
          ring
      · have hc' : containsKey l (matchKey m) = false := by
          cases h' : containsKey l (matchKey m)
          · rfl
          · exact absurd h' hc
        have ha' := (insertMatch_mem_fresh hc' a).mp ha
        subst ha'
        have hempty : groupOf (matchKey m) processed = [] := by
          by_contra hne
          have htrue := (hok.keys_iff (matchKey m)).mpr hne
          rw [htrue] at hc'
          cases hc'
        simp [initAggregate, hempty]
    · have hif : (if matchKey m = k then [m] else []) = ([] : List RawFaceMatch) :=
        if_neg fun h => hk h.symm
      rw [hif, List.append_nil]
      exact hok.stats k a ((insertMatch_mem_of_ne hk).mp ha)

lemma groupsOk_foldl :
    ∀ (ms processed : List RawFaceMatch) (l : List ((ℕ × String) × PairAggregate)),
      GroupsOk processed l → GroupsOk (processed ++ ms) (ms.foldl insertMatch l)
  | [], processed, l, h => by simpa using h
  | m :: ms, processed, l, h => by
    have h1 := groupsOk_insert m h
    have h2 := groupsOk_foldl ms (processed ++ [m]) (insertMatch l m) h1
    simpa using h2

lemma groupsOk_nil : GroupsOk [] [] := by
  constructor
  · intro k
    simp [containsKey, groupOf]
  · simp
  · intro k a ha
    cases ha

lemma groupsOk_aggregatedGroups (ms : List RawFaceMatch) :
    GroupsOk ms (aggregatedGroups ms) := by
  have h := groupsOk_foldl ms [] [] groupsOk_nil
  simpa [aggregatedGroups] using h

/-- C3: each entry of the pair aggregation built by the incremental update
`avg = (avg * (count - 1) + x) / count` ends with `count` equal to its group's
size and `avg_iou` / `avg_center_dist` equal to the exact arithmetic means of
the group's IoUs / center distances (over ℚ); the `aggregatedMatches` list is
exactly the values of that grouping. -/
theorem aggregatedMatches_mean_correct (ms : List RawFaceMatch) (k : ℕ × String)
    (a : PairAggregate) (h : (k, a) ∈ aggregatedGroups ms) :
    a.count = (groupOf k ms).length
    ∧ 0 < a.count
    ∧ a.avg_iou = ((groupOf k ms).map RawFaceMatch.iou).sum / (a.count : ℚ)
    ∧ a.avg_center_dist = ((groupOf k ms).map RawFaceMatch.center_dist).sum / (a.count : ℚ)
    ∧ (∀ b, b ∈ aggregatedMatches ms ↔ ∃ kb, (kb, b) ∈ aggregatedGroups ms) := by
  obtain ⟨hcount, hpos, hiou, hcd⟩ := (groupsOk_aggregatedGroups ms).stats k a h
  have hnz : (a.count : ℚ) ≠ 0 := by
    exact_mod_cast Nat.pos_iff_ne_zero.mp hpos
  refine ⟨hcount, hpos, ?_, ?_, ?_⟩
  · rw [eq_div_iff hnz]
    exact hiou
  · rw [eq_div_iff hnz]
    exact hcd
  · intro b
    rw [aggregatedMatches, List.mem_mergeSort, List.mem_map]
    constructor
    · rintro ⟨⟨kb, b'⟩, hmem, hb⟩
      exact ⟨kb, by rwa [show b' = b from hb] at hmem⟩
    · rintro ⟨kb, hmem⟩
      exact ⟨(kb, b), hmem, rfl⟩

theorem aggregatedMatches_mean_correct_witness :
    ((((7 : ℕ), "c9"), initAggregate ⟨7, "Grace", "c9", none, 1/2, 1/10, "g.jpg"⟩) ∈
        aggregatedGroups [⟨7, "Grace", "c9", none, 1/2, 1/10, "g.jpg"⟩])
    ∧ (initAggregate ⟨7, "Grace", "c9", none, 1/2, 1/10, "g.jpg"⟩).count =
        (groupOf ((7 : ℕ), "c9") [⟨7, "Grace", "c9", none, 1/2, 1/10, "g.jpg"⟩]).length := by
  have hmem : ((((7 : ℕ), "c9"),
      initAggregate ⟨7, "Grace", "c9", none, 1/2, 1/10, "g.jpg"⟩) ∈
      aggregatedGroups [⟨7, "Grace", "c9", none, 1/2, 1/10, "g.jpg"⟩]) := by
    simp [aggregatedGroups, insertMatch, matchKey]
  exact ⟨hmem,
    (aggregatedMatches_mean_correct [⟨7, "Grace", "c9", none, 1/2, 1/10, "g.jpg"⟩]
      ((7 : ℕ), "c9") _ hmem).1⟩

/-- Confidence grade of a `PersonMatch` (`'high' | 'medium' | 'low'`). -/
inductive Confidence
  | high
  | medium
  | low
deriving DecidableEq

/-- Aggregated person→cluster match row (`PersonMatch` in `types.ts`). -/
structure PersonMatch where
  ms_person_id : ℕ
  ms_person_name : String
  immich_cluster_id : String
  immich_cluster_name : Option String
  face_matches : ℕ
  avg_iou : ℚ
  avg_center_dist : ℚ
  confidence : Confidence
deriving DecidableEq

/-- JS truthiness of a `string | null` value (`!!name`): false exactly for
`null` and for the empty string. -/
def strTruthy : Option String → Bool
  | none => false
  | some s => decide (s ≠ "")

/-- Filter-mode selector of the TransferNames tab. -/
inductive FilterMode
  | all
  | applicable
  | already_named
  | applied
deriving DecidableEq

/-- Confidence filter selector of the TransferNames tab. -/
inductive ConfidenceFilter
  | all
  | high
  | medium
  | low
deriving DecidableEq

/-- Sort column of the TransferNames table. -/
inductive SortField
  | name
  | matches
  | avg_iou
  | confidence
deriving DecidableEq

/-- Sort direction of the TransferNames table. -/
inductive SortDirection
  | asc
  | desc
deriving DecidableEq

/-- Mode predicate of the TransferNames `filteredMatches` memo. -/
def tnModeFilter (renamedClusters : List String) (mode : FilterMode)
    (m : PersonMatch) : Bool :=
  let isApplied := decide (m.immich_cluster_id ∈ renamedClusters)
  let isAlreadyNamed := strTruthy m.immich_cluster_name
  let isApplicable := !isAlreadyNamed
  match mode with
  | .applicable => isApplicable && !isApplied
  | .already_named => isAlreadyNamed
  | .applied => isApplied
  | .all => true

/-- Confidence sub-filter of the TransferNames `filteredMatches` memo
(applied only when the selector is not `'all'`). -/
def tnConfFilter (cf : ConfidenceFilter) (l : List PersonMatch) : List PersonMatch :=
  match cf with
  | .all => l
  | .high => l.filter fun m => decide (m.confidence = .high)
  | .medium => l.filter fun m => decide (m.confidence = .medium)
  | .low => l.filter fun m => decide (m.confidence = .low)

/-- Numeric confidence order used by the sort comparator
(`{ high: 3, medium: 2, low: 1 }`). -/
def confOrder : Confidence → ℕ
  | .high => 3
  | .medium => 2
  | .low => 1

/-- Sort comparator value `cmp` of the TransferNames table. -/
def tnCompare (sf : SortField) (a b : PersonMatch) : ℚ :=
  match sf with
  | .name =>
    if a.ms_person_name < b.ms_person_name then -1
    else if b.ms_person_name < a.ms_person_name then 1
    else 0
  | .matches => (a.face_matches : ℚ) - (b.face_matches : ℚ)
  | .avg_iou => a.avg_iou - b.avg_iou
  | .confidence => (confOrder a.confidence : ℚ) - (confOrder b.confidence : ℚ)

/-- Ordering induced by the comparator (`sortDirection === 'desc' ? -cmp : cmp`). -/
def tnSortLe (sf : SortField) (sd : SortDirection) (a b : PersonMatch) : Bool :=
  match sd with
  | .desc => decide (-(tnCompare sf a b) ≤ 0)
  | .asc => decide (tnCompare sf a b ≤ 0)

/-- TransferNames `filteredMatches`: mode filter, then confidence filter, then
the stable in-place sort. -/
def tnFilteredMatches (clusterMatches : List PersonMatch) (renamedClusters : List String)
    (mode : FilterMode) (cf : ConfidenceFilter) (sf : SortField) (sd : SortDirection) :
    List PersonMatch :=
  (tnConfFilter cf (clusterMatches.filter (tnModeFilter renamedClusters mode))).mergeSort
    (tnSortLe sf sd)

/-- Matches retained by the Select-All-Applicable action before it projects to
cluster ids. -/
def tnSelectAllMatches (clusterMatches : List PersonMatch) (renamedClusters : List String)
    (mode : FilterMode) (cf : ConfidenceFilter) (sf : SortField) (sd : SortDirection) :
    List PersonMatch :=
  (tnFilteredMatches clusterMatches renamedClusters mode cf sf sd).filter fun m =>
    !decide (m.immich_cluster_id ∈ renamedClusters) && !strTruthy m.immich_cluster_name

/-- Cluster ids selected by Select-All-Applicable. -/
def tnSelectAllIds (clusterMatches : List PersonMatch) (renamedClusters : List String)
    (mode : FilterMode) (cf : ConfidenceFilter) (sf : SortField) (sd : SortDirection) :
    List String :=
  (tnSelectAllMatches clusterMatches renamedClusters mode cf sf sd).map
    fun m => m.immich_cluster_id

/-- The `matchesToApply` list assembled at the start of the TransferNames bulk
apply (`applySelected`). -/
def tnMatchesToApply (clusterMatches : List PersonMatch) (renamedClusters : List String)
    (mode : FilterMode) (cf : ConfidenceFilter) (sf : SortField) (sd : SortDirection)
    (selectedIds : List String) : List PersonMatch :=
  (tnFilteredMatches clusterMatches renamedClusters mode cf sf sd).filter fun m =>
    decide (m.immich_cluster_id ∈ selectedIds) &&
      !decide (m.immich_cluster_id ∈ renamedClusters) && !strTruthy m.immich_cluster_name

lemma mem_tnConfFilter {cf : ConfidenceFilter} {l : List PersonMatch} {m : PersonMatch}
    (h : m ∈ tnConfFilter cf l) : m ∈ l := by
  cases cf
  · exact h
  · exact List.mem_of_mem_filter h
  · exact List.mem_of_mem_filter h
  · exact List.mem_of_mem_filter h

lemma mem_tnFilteredMatches {clusterMatches : List PersonMatch}
    {renamedClusters : List String} {mode : FilterMode} {cf : ConfidenceFilter}
    {sf : SortField} {sd : SortDirection} {m : PersonMatch}
    (h : m ∈ tnFilteredMatches clusterMatches renamedClusters mode cf sf sd) :
    m ∈ clusterMatches.filter (tnModeFilter renamedClusters mode) :=
  mem_tnConfFilter (List.mem_mergeSort.mp h)

/-- C4: every match offered for rename has an unnamed target cluster: matches
shown under the `'applicable'` filter mode, matches grabbed by
Select-All-Applicable, and matches submitted by the bulk rename path all have
a null/empty `immich_cluster_name`. -/
theorem transferNames_only_unnamed (clusterMatches : List PersonMatch)
    (renamedClusters selectedIds : List String) (cf : ConfidenceFilter)
    (sf : SortField) (sd : SortDirection) :
    (∀ o, strTruthy o = false ↔ o = none ∨ o = some "")
    ∧ (∀ m ∈ tnFilteredMatches clusterMatches renamedClusters .applicable cf sf sd,
        strTruthy m.immich_cluster_name = false)
    ∧ (∀ mode, ∀ m ∈ tnSelectAllMatches clusterMatches renamedClusters mode cf sf sd,
        strTruthy m.immich_cluster_name = false)
    ∧ (∀ mode, ∀ m ∈ tnMatchesToApply clusterMatches renamedClusters mode cf sf sd selectedIds,
        strTruthy m.immich_cluster_name = false) := by
  refine ⟨?_, ?_, ?_, ?_⟩
  · intro o
    match o with
    | none => simp [strTruthy]
    | some s => simp [strTruthy]
  · intro m hm
    have h1 := List.of_mem_filter (mem_tnFilteredMatches hm)
    simp only [tnModeFilter, Bool.and_eq_true, Bool.not_eq_true'] at h1
    exact h1.1
  · intro mode m hm
    have h1 := List.of_mem_filter hm
    simp only [Bool.and_eq_true, Bool.not_eq_true'] at h1
    exact h1.2
  · intro mode m hm
    have h1 := List.of_mem_filter hm
    simp only [Bool.and_eq_true, Bool.not_eq_true'] at h1
    exact h1.2

theorem transferNames_only_unnamed_witness :
    (⟨3, "Carol", "cX", none, 4, 1/2, 1/10, Confidence.medium⟩ ∈
        tnFilteredMatches [⟨3, "Carol", "cX", none, 4, 1/2, 1/10, Confidence.medium⟩]
          [] .applicable .all .matches .desc)
    ∧ strTruthy (Option.none : Option String) = false := by
  have hmem : (⟨3, "Carol", "cX", none, 4, 1/2, 1/10, Confidence.medium⟩ ∈
      tnFilteredMatches [⟨3, "Carol", "cX", none, 4, 1/2, 1/10, Confidence.medium⟩]
        [] .applicable .all .matches .desc) := by
    rw [tnFilteredMatches, List.mem_mergeSort]
    simp [tnConfFilter, tnModeFilter, strTruthy]
  exact ⟨hmem,
    (transferNames_only_unnamed [⟨3, "Carol", "cX", none, 4, 1/2, 1/10, Confidence.medium⟩]
        [] [] .all .matches .desc).2.1 _ hmem⟩

/-- Outcome of one awaited `applyMatches` call: success, a structured failure
result, or a thrown exception. -/
inductive ApplyOutcome
  | ok
  | failed (error : String)
  | thrown (error : String)
deriving DecidableEq

/-- Status of one progress-modal row (`ProgressItem.status`). -/
inductive ProgressStatus
  | pending
  | processing
  | success
  | error (msg : String)
deriving DecidableEq

/-- Terminal status written for an item once its awaited call settles. -/
def stepStatus : ApplyOutcome → ProgressStatus
  | .ok => .success
  | .failed e => .error e
  | .thrown e => .error e

/-- Statuses `success` and `error` are terminal. -/
def isTerminalStatus : ProgressStatus → Bool
  | .success => true
  | .error _ => true
  | .pending => false
  | .processing => false

/-- Body of one `applyMatches` request of the TransferNames bulk loop. -/
structure ApplyMatchesPayload where
  ms_person_id : ℕ
  ms_person_name : String
  immich_cluster_id : String
  dry_run : Bool
deriving DecidableEq

/-- Request payload sent for a match (`dry_run: false`). -/
def applyPayload (m : PersonMatch) : ApplyMatchesPayload :=
  ⟨m.ms_person_id, m.ms_person_name, m.immich_cluster_id, false⟩

/-- The TransferNames bulk-apply loop over `matchesToApply`, producing the
final status of every progress row.  `outcome i` is what the i-th awaited
call settles to; `cancelled i` is the value of `cancelRef.current` observed by
the check at the top of iteration `i`; a raised flag breaks the loop and the
remaining rows keep their initial `pending` status. -/
def applyLoop (outcome : ℕ → ApplyOutcome) (cancelled : ℕ → Bool) :
    ℕ → List PersonMatch → List ProgressStatus
  | _, [] => []
  | i, m :: rest =>
    if cancelled i then (m :: rest).map fun _ => ProgressStatus.pending
    else stepStatus (outcome i) :: applyLoop outcome cancelled (i + 1) rest

/-- Final progress statuses of one TransferNames bulk apply. -/
def applySelectedProgress (matchesToApply : List PersonMatch)
    (outcome : ℕ → ApplyOutcome) (cancelled : ℕ → Bool) : List ProgressStatus :=
  applyLoop outcome cancelled 0 matchesToApply

/-- Trace of the `applyMatches` requests issued by the loop, in issue order. -/
def applyCallTrace (cancelled : ℕ → Bool) :
    ℕ → List PersonMatch → List ApplyMatchesPayload
  | _, [] => []
  | i, m :: rest =>
    if cancelled i then []
    else applyPayload m :: applyCallTrace cancelled (i + 1) rest

lemma applyLoop_length (outcome : ℕ → ApplyOutcome) (cancelled : ℕ → Bool) :
    ∀ (items : List PersonMatch) (i : ℕ),
      (applyLoop outcome cancelled i items).length = items.length
  | [], _ => rfl
  | m :: rest, i => by
    rw [applyLoop]
    by_cases h : cancelled i = true
    · simp [h]
    · have h' : cancelled i = false := by
        cases hc : cancelled i
        · rfl
        · exact absurd hc h
      simp [h', applyLoop_length outcome cancelled rest (i + 1)]

lemma applyLoop_getElem_cancelAfter (outcome : ℕ → ApplyOutcome) (k : ℕ) :
    ∀ (items : List PersonMatch) (i0 j : ℕ), j < items.length →
      (applyLoop outcome (fun n => decide (k < n)) i0 items)[j]? =
        some (if i0 + j ≤ k then stepStatus (outcome (i0 + j)) else .pending)
  | [], _, j, hj => absurd hj (by simp)
  | m :: rest, i0, j, hj => by
    rw [applyLoop]
    by_cases hi : k < i0
    · rw [if_pos (by simpa using hi)]
      have hij : ¬ i0 + j ≤ k := by omega
      rw [if_neg hij, List.getElem?_map]
      rw [List.getElem?_eq_getElem hj]
      rfl
    · rw [if_neg (by simpa using hi)]
      match j with
      | 0 =>
        rw [List.getElem?_cons_zero]
        have h0 : i0 + 0 ≤ k := by omega
        rw [if_pos h0, Nat.add_zero]
      | j' + 1 =>
        rw [List.getElem?_cons_succ]
        have hj' : j' < rest.length := by simpa using hj
        rw [applyLoop_getElem_cancelAfter outcome k rest (i0 + 1) j' hj']
        have harith : i0 + 1 + j' = i0 + (j' + 1) := by omega
        rw [harith]

lemma applyLoop_getElem_noCancel (outcome : ℕ → ApplyOutcome) :
    ∀ (items : List PersonMatch) (i0 j : ℕ), j < items.length →
      (applyLoop outcome (fun _ => false) i0 items)[j]? =
        some (stepStatus (outcome (i0 + j)))
  | [], _, j, hj => absurd hj (by simp)
  | m :: rest, i0, j, hj => by
    rw [applyLoop, if_neg (by simp)]
    match j with
    | 0 =>
      rw [List.getElem?_cons_zero, Nat.add_zero]
    | j' + 1 =>
      rw [List.getElem?_cons_succ]
      have hj' : j' < rest.length := by simpa using hj
      rw [applyLoop_getElem_noCancel outcome rest (i0 + 1) j' hj']
      have harith : i0 + 1 + j' = i0 + (j' + 1) := by omega
      rw [harith]

lemma applyCallTrace_noCancel :
    ∀ (items : List PersonMatch) (i : ℕ),
      applyCallTrace (fun _ => false) i items = items.map applyPayload
  | [], _ => rfl
  | m :: rest, i => by
    rw [applyCallTrace, if_neg (by simp), applyCallTrace_noCancel rest (i + 1),
      List.map_cons]

/-- C5: if cancellation is raised after item `k`'s awaited call settles (so the
loop checks at iterations ≤ k saw a lowered flag and every later check sees a
raised one), then items `0..k` carry the terminal status determined by their
own call — the in-flight item is completed and reported — and items `k+1..n-1`
remain `pending`; in particular cancellation marks no item as `error`. -/
theorem applySelected_cancellation (matchesToApply : List PersonMatch)
    (outcome : ℕ → ApplyOutcome) (k : ℕ) :
    (applySelectedProgress matchesToApply outcome (fun n => decide (k < n))).length
        = matchesToApply.length
    ∧ (∀ i, i < matchesToApply.length → i ≤ k →
        (applySelectedProgress matchesToApply outcome (fun n => decide (k < n)))[i]? =
            some (stepStatus (outcome i))
          ∧ isTerminalStatus (stepStatus (outcome i)) = true)
    ∧ (∀ i, i < matchesToApply.length → k < i →
        (applySelectedProgress matchesToApply outcome (fun n => decide (k < n)))[i]? =
          some .pending) := by
  refine ⟨applyLoop_length _ _ _ _, ?_, ?_⟩
  · intro i hi hik
    have h := applyLoop_getElem_cancelAfter outcome k matchesToApply 0 i hi
    rw [if_pos (by omega)] at h
    refine ⟨by simpa using h, ?_⟩
    cases outcome i <;> rfl
  · intro i hi hik
    have h := applyLoop_getElem_cancelAfter outcome k matchesToApply 0 i hi
    rw [if_neg (by omega)] at h
    simpa using h

theorem applySelected_cancellation_witness :
    ((applySelectedProgress
        [⟨1, "A", "c1", none, 1, 1/2, 1/10, Confidence.low⟩,
         ⟨2, "B", "c2", none, 1, 1/2, 1/10, Confidence.low⟩,
         ⟨3, "C", "c3", none, 1, 1/2, 1/10, Confidence.low⟩]
        (fun i => if i = 1 then ApplyOutcome.failed "boom" else ApplyOutcome.ok)
        (fun n => decide (1 < n)))[2]? = some .pending)
    ∧ ((applySelectedProgress
        [⟨1, "A", "c1", none, 1, 1/2, 1/10, Confidence.low⟩,
         ⟨2, "B", "c2", none, 1, 1/2, 1/10, Confidence.low⟩,
         ⟨3, "C", "c3", none, 1, 1/2, 1/10, Confidence.low⟩]
        (fun i => if i = 1 then ApplyOutcome.failed "boom" else ApplyOutcome.ok)
        (fun n => decide (1 < n)))[1]? =
          some (stepStatus (ApplyOutcome.failed "boom"))) := by
  have h := applySelected_cancellation
    [⟨1, "A", "c1", none, 1, 1/2, 1/10, Confidence.low⟩,
     ⟨2, "B", "c2", none, 1, 1/2, 1/10, Confidence.low⟩,
     ⟨3, "C", "c3", none, 1, 1/2, 1/10, Confidence.low⟩]
    (fun i => if i = 1 then ApplyOutcome.failed "boom" else ApplyOutcome.ok) 1
  refine ⟨h.2.2 2 (by decide) (by decide), ?_⟩
  have h1 := (h.2.1 1 (by decide) (by decide)).1
  simpa using h1

/-- One face item of a `createFaces` request: pixel rectangle plus the image's
pixel dimensions. -/
structure CreateFaceItem where
  asset_id : String
  x : ℤ
  y : ℤ
  width : ℤ
  height : ℤ
  image_width : ℕ
  image_height : ℕ
deriving DecidableEq

/-- Outcome of one awaited `createFaces` call inside the per-face loop. -/
inductive FaceOutcome
  | ok
  | failed (error : String)
  | thrown (error : String)
deriving DecidableEq

/-- Whether a face call did not succeed (failed result or thrown exception). -/
def isFaceFailure : FaceOutcome → Bool
  | .ok => false
  | .failed _ => true
  | .thrown _ => true

/-- One step of the per-face loop's `(successCount, lastError)` accumulator. -/
def faceLoopStep (acc : ℕ × Option String) (o : FaceOutcome) : ℕ × Option String :=
  match o with
  | .ok => (acc.1 + 1, acc.2)
  | .failed e => (acc.1, some e)
  | .thrown e => (acc.1, some e)

/-- `(successCount, lastError)` after processing the item's selected faces one
at a time. -/
def faceLoopResult (n : ℕ) (oi : ℕ → FaceOutcome) : ℕ × Option String :=
  (List.range n).foldl (fun acc j => faceLoopStep acc (oi j)) (0, none)

/-- Final progress status of one CreateFaces bulk item: items with no selected
faces are skipped as `success`; otherwise full or partial success is reported
as `success` and an item whose every face call failed as `error` with
`lastError || 'All faces failed'`. -/
def createItemStatus (faces : List CreateFaceItem) (oi : ℕ → FaceOutcome) :
    ProgressStatus :=
  if faces.length = 0 then .success
  else
    let r := faceLoopResult faces.length oi
    if r.1 = faces.length then .success
    else if 0 < r.1 then .success
    else .error (r.2.getD "All faces failed")

/-- The CreateFaces bulk-apply loop (no cancellation raised): each person item
is processed in submitted order and its status depends only on its own face
outcomes. -/
def createFacesLoop (oi : ℕ → ℕ → FaceOutcome) :
    ℕ → List (List CreateFaceItem) → List ProgressStatus
  | _, [] => []
  | i, fs :: rest => createItemStatus fs (oi i) :: createFacesLoop oi (i + 1) rest

/-- Trace of the faces sent to `createFaces`, one call per face, in submitted
order. -/
def createFacesCallTrace : List (List CreateFaceItem) → List CreateFaceItem
  | [] => []
  | fs :: rest => fs ++ createFacesCallTrace rest

lemma createFacesLoop_getElem (oi : ℕ → ℕ → FaceOutcome) :
    ∀ (items : List (List CreateFaceItem)) (i0 j : ℕ) (fs : List CreateFaceItem),
      items[j]? = some fs →
      (createFacesLoop oi i0 items)[j]? = some (createItemStatus fs (oi (i0 + j)))
  | [], _, j, fs, h => by simp at h
  | g :: rest, i0, j, fs, h => by
    rw [createFacesLoop]
    match j with
    | 0 =>
      rw [List.getElem?_cons_zero] at h
      obtain rfl : g = fs := Option.some.inj h
      rw [List.getElem?_cons_zero, Nat.add_zero]
    | j' + 1 =>
      rw [List.getElem?_cons_succ] at h
      rw [List.getElem?_cons_succ,
        createFacesLoop_getElem oi rest (i0 + 1) j' fs h]
      have harith : i0 + 1 + j' = i0 + (j' + 1) := by omega
      rw [harith]

lemma createFacesCallTrace_flatten :
    ∀ items : List (List CreateFaceItem), createFacesCallTrace items = items.flatten
  | [] => rfl
  | fs :: rest => by
    rw [createFacesCallTrace, createFacesCallTrace_flatten rest, List.flatten_cons]

lemma faceLoopResult_allFail (oi : ℕ → FaceOutcome) :
    ∀ n : ℕ, (∀ j, j < n → isFaceFailure (oi j) = true) → (faceLoopResult n oi).1 = 0 := by
  intro n
  induction n with
  | zero => intro _; rfl
  | succ n ih =>
    intro hall
    have hstep : faceLoopResult (n + 1) oi =
        faceLoopStep (faceLoopResult n oi) (oi n) := by
      rw [faceLoopResult, faceLoopResult, List.range_succ, List.foldl_append,
        List.foldl_cons, List.foldl_nil]
    rw [hstep]
    have h0 := ih fun j hj => hall j (by omega)
    have hn := hall n (by omega)
    cases ho : oi n <;> rw [ho] at hn <;> simp [isFaceFailure] at hn <;>
      simp [faceLoopStep, ho, h0]

/-- C6: bulk applies process items strictly one at a time in submitted order —
the TransferNames loop issues exactly one `applyMatches` request per item, in
list order, and the CreateFaces loop issues one `createFaces` request per
selected face, in list order; each item's final status is a function of its
own outcomes only (so a failure marks only that item `error` and the loop
continues), a failed result and a thrown exception both yield `error` with the
message, and for every outcome and cancellation environment the loop returns a
full structured status list (it never throws). -/
theorem applySelected_sequential (matchesToApply : List PersonMatch)
    (outcome : ℕ → ApplyOutcome) (cfItems : List (List CreateFaceItem))
    (faceOutcome : ℕ → ℕ → FaceOutcome) :
    applyCallTrace (fun _ => false) 0 matchesToApply = matchesToApply.map applyPayload
    ∧ (∀ i, i < matchesToApply.length →
        (applySelectedProgress matchesToApply outcome (fun _ => false))[i]? =
          some (stepStatus (outcome i)))
    ∧ (∀ e, stepStatus (.failed e) = .error e ∧ stepStatus (.thrown e) = .error e)
    ∧ (∀ cancelled, (applySelectedProgress matchesToApply outcome cancelled).length =
        matchesToApply.length)
    ∧ createFacesCallTrace cfItems = cfItems.flatten
    ∧ (∀ i fs, cfItems[i]? = some fs →
        (createFacesLoop faceOutcome 0 cfItems)[i]? =
          some (createItemStatus fs (faceOutcome i)))
    ∧ (∀ i fs, cfItems[i]? = some fs → fs.length ≠ 0 →
        (∀ j, j < fs.length → isFaceFailure (faceOutcome i j) = true) →
        (createFacesLoop faceOutcome 0 cfItems)[i]? =
          some (.error ((faceLoopResult fs.length (faceOutcome i)).2.getD
            "All faces failed"))) := by
  refine ⟨applyCallTrace_noCancel _ _, ?_, ?_, ?_, createFacesCallTrace_flatten _, ?_, ?_⟩
  · intro i hi
    have h := applyLoop_getElem_noCancel outcome matchesToApply 0 i hi
    simpa using h
  · intro e
    exact ⟨rfl, rfl⟩
  · intro cancelled
    exact applyLoop_length _ _ _ _
  · intro i fs h
    have hg := createFacesLoop_getElem faceOutcome cfItems 0 i fs h
    simpa using hg
  · intro i fs h hne hall
    have hg := createFacesLoop_getElem faceOutcome cfItems 0 i fs h
    rw [Nat.zero_add] at hg
    rw [hg]
    have hzero := faceLoopResult_allFail (faceOutcome i) fs.length hall
    rw [createItemStatus, if_neg hne]
    have hlen : ¬ (faceLoopResult fs.length (faceOutcome i)).1 = fs.length := by
      rw [hzero]
      omega
    rw [if_neg hlen, if_neg (by rw [hzero]; omega)]

theorem applySelected_sequential_witness :
    ((applySelectedProgress
        [⟨1, "A", "c1", none, 1, 1/2, 1/10, Confidence.low⟩,
         ⟨2, "B", "c2", none, 1, 1/2, 1/10, Confidence.low⟩]
        (fun i => if i = 0 then ApplyOutcome.thrown "net" else ApplyOutcome.ok)
        (fun _ => false))[0]? =
      some (stepStatus (ApplyOutcome.thrown "net")))
    ∧ ((createFacesLoop
        (fun _ _ => FaceOutcome.failed "dup")
        0 [[⟨"asset1", 1, 2, 3, 4, 100, 50⟩]])[0]? =
      some (.error ((faceLoopResult 1 (fun _ => FaceOutcome.failed "dup")).2.getD
        "All faces failed"))) := by
  have h := applySelected_sequential
    [⟨1, "A", "c1", none, 1, 1/2, 1/10, Confidence.low⟩,
     ⟨2, "B", "c2", none, 1, 1/2, 1/10, Confidence.low⟩]
    (fun i => if i = 0 then ApplyOutcome.thrown "net" else ApplyOutcome.ok)
    [[⟨"asset1", 1, 2, 3, 4, 100, 50⟩]]
    (fun _ _ => FaceOutcome.failed "dup")
  refine ⟨?_, ?_⟩
  · have h1 := h.2.1 0 (by decide)
    simpa using h1
  · exact h.2.2.2.2.2.2 0 [⟨"asset1", 1, 2, 3, 4, 100, 50⟩] rfl (by decide)
      (fun j hj => rfl)

/-- JS `Set` modelled as an insertion-ordered list: `new Set([...l, a])` keeps
the first occurrence, so adding appends only when absent. -/
def jsSetAdd (l : List ℕ) (a : ℕ) : List ℕ :=
  if a ∈ l then l else l ++ [a]

/-- JS string `Set` variant of `jsSetAdd`. -/
def jsSetAddStr (l : List String) (a : String) : List String :=
  if a ∈ l then l else l ++ [a]

/-- `new Set(array)`: deduplicate keeping first occurrences. -/
def jsSetOfArray (l : List ℕ) : List ℕ :=
  l.foldl jsSetAdd []

/-- `new Set(array)` for strings. -/
def jsSetOfArrayStr (l : List String) : List String :=
  l.foldl jsSetAddStr []

/-- `set.delete(a)` returning the updated set. -/
def jsSetDelete (l : List ℕ) (a : ℕ) : List ℕ :=
  l.erase a

/-- String variant of `jsSetDelete`. -/
def jsSetDeleteStr (l : List String) (a : String) : List String :=
  l.erase a

lemma mem_jsSetAdd (l : List ℕ) (a x : ℕ) : x ∈ jsSetAdd l a ↔ x ∈ l ∨ x = a := by
  rw [jsSetAdd]
  by_cases h : a ∈ l
  · rw [if_pos h]
    constructor
    · exact fun hx => Or.inl hx
    · rintro (hx | rfl)
      · exact hx
      · exact h
  · rw [if_neg h]
    simp

lemma mem_jsSetAddStr (l : List String) (a x : String) :
    x ∈ jsSetAddStr l a ↔ x ∈ l ∨ x = a := by
  rw [jsSetAddStr]
  by_cases h : a ∈ l
  · rw [if_pos h]
    constructor
    · exact fun hx => Or.inl hx
    · rintro (hx | rfl)
      · exact hx
      · exact h
  · rw [if_neg h]
    simp

lemma mem_jsSetOfArray_aux (l : List ℕ) :
    ∀ (acc : List ℕ) (x : ℕ), x ∈ l.foldl jsSetAdd acc ↔ x ∈ acc ∨ x ∈ l := by
  induction l with
  | nil => intro acc x; simp
  | cons a t ih =>
    intro acc x
    rw [List.foldl_cons, ih, mem_jsSetAdd]
    simp only [List.mem_cons]
    tauto

lemma mem_jsSetOfArray (l : List ℕ) (x : ℕ) : x ∈ jsSetOfArray l ↔ x ∈ l := by
  rw [jsSetOfArray, mem_jsSetOfArray_aux]
  simp

lemma mem_jsSetOfArrayStr_aux (l : List String) :
    ∀ (acc : List String) (x : String),
      x ∈ l.foldl jsSetAddStr acc ↔ x ∈ acc ∨ x ∈ l := by
  induction l with
  | nil => intro acc x; simp
  | cons a t ih =>
    intro acc x
    rw [List.foldl_cons, ih, mem_jsSetAddStr]
    simp only [List.mem_cons]
    tauto

lemma mem_jsSetOfArrayStr (l : List String) (x : String) :
    x ∈ jsSetOfArrayStr l ↔ x ∈ l := by
  rw [jsSetOfArrayStr, mem_jsSetOfArrayStr_aux]
  simp

/-- The four applied-changes sets persisted to localStorage
(`AppliedChanges` in `useAppliedChanges.ts` / `MatchingContext`), each a JS
`Set` modelled as an insertion-ordered duplicate-free list. -/
structure AppliedChanges where
  renamedClusters : List String
  assignedPeople : List ℕ
  mergedPeople : List ℕ
  fixedClusters : List String
deriving DecidableEq

/-- The four empty sets. -/
def emptyAppliedChanges : AppliedChanges :=
  ⟨[], [], [], []⟩

/-- JSON object shape actually parsed back from localStorage; each array may be
missing (the loader defaults it with `|| []`). -/
structure StoredAppliedChanges where
  renamedClusters : Option (List String)
  assignedPeople : Option (List ℕ)
  mergedPeople : Option (List ℕ)
  fixedClusters : Option (List String)
deriving DecidableEq

/-- A localStorage slot: the key can be absent, hold a string `JSON.parse`
rejects (the load helpers catch and fall back), or hold a parsable value. -/
inductive StorageCell (α : Type)
  | absent
  | corrupt
  | stored (value : α)
deriving DecidableEq

/-- `saveAppliedChanges`: serialize each set with `Array.from` (the insertion
order) and store it. -/
def saveAppliedChanges (changes : AppliedChanges) : StorageCell StoredAppliedChanges :=
  .stored
    ⟨some changes.renamedClusters, some changes.assignedPeople,
     some changes.mergedPeople, some changes.fixedClusters⟩

/-- `loadAppliedChanges`: rebuild the four sets (`new Set(parsed.x || [])`),
defaulting every missing array and the absent / unparsable cases to empty. -/
def loadAppliedChanges : StorageCell StoredAppliedChanges → AppliedChanges
  | .stored v =>
    ⟨jsSetOfArrayStr (v.renamedClusters.getD []), jsSetOfArray (v.assignedPeople.getD []),
     jsSetOfArray (v.mergedPeople.getD []), jsSetOfArrayStr (v.fixedClusters.getD [])⟩
  | .absent => emptyAppliedChanges
  | .corrupt => emptyAppliedChanges

/-- JSON object shape parsed back from the thresholds localStorage key; the
loader defaults each missing field with `?? 0.3` / `?? 0.4`. -/
structure StoredThresholds where
  minIoU : Option ℚ
  maxCenterDist : Option ℚ
deriving DecidableEq

/-- `saveThresholds`. -/
def saveThresholds (minIoU maxCenterDist : ℚ) : StorageCell StoredThresholds :=
  .stored ⟨some minIoU, some maxCenterDist⟩

/-- `loadThresholds`: stored values with per-field defaults, falling back to
`(0.3, 0.4)` when the key is absent or unparsable. -/
def loadThresholds : StorageCell StoredThresholds → ℚ × ℚ
  | .stored v => (v.minIoU.getD (0.3 : ℚ), v.maxCenterDist.getD (0.4 : ℚ))
  | .absent => ((0.3 : ℚ), (0.4 : ℚ))
  | .corrupt => ((0.3 : ℚ), (0.4 : ℚ))

/-- C10: the persistence helpers round-trip — loading right after saving
returns four sets containing exactly the elements of the saved sets — and they
are total: an absent or unparsable stored value yields four empty sets, and
absent or unparsable thresholds yield the defaults (0.3, 0.4), with no
exception escaping. -/
theorem appliedChanges_roundtrip (c : AppliedChanges) :
    (∀ x, x ∈ (loadAppliedChanges (saveAppliedChanges c)).renamedClusters ↔
        x ∈ c.renamedClusters)
    ∧ (∀ p : ℕ, p ∈ (loadAppliedChanges (saveAppliedChanges c)).assignedPeople ↔
        p ∈ c.assignedPeople)
    ∧ (∀ p : ℕ, p ∈ (loadAppliedChanges (saveAppliedChanges c)).mergedPeople ↔
        p ∈ c.mergedPeople)
    ∧ (∀ x, x ∈ (loadAppliedChanges (saveAppliedChanges c)).fixedClusters ↔
        x ∈ c.fixedClusters)
    ∧ loadAppliedChanges .absent = emptyAppliedChanges
    ∧ loadAppliedChanges .corrupt = emptyAppliedChanges
    ∧ loadThresholds .absent = ((0.3 : ℚ), (0.4 : ℚ))
    ∧ loadThresholds .corrupt = ((0.3 : ℚ), (0.4 : ℚ)) := by
  refine ⟨?_, ?_, ?_, ?_, rfl, rfl, rfl, rfl⟩
  · intro x
    exact mem_jsSetOfArrayStr _ _
  · intro p
    exact mem_jsSetOfArray _ _
  · intro p
    exact mem_jsSetOfArray _ _
  · intro x
    exact mem_jsSetOfArrayStr _ _

/-- Combined local UI state touched by the acknowledgement-only actions of the
MergeClusters and FixIssues tabs, together with a trace of remote API calls
(none of these actions appends to it). -/
structure AckUiState where
  appliedChanges : AppliedChanges
  appliedChangesStore : StorageCell StoredAppliedChanges
  mergeSelectedIds : List ℕ
  fixSelectedIds : List String
  remoteCalls : List String

/-- Context action `markClustersMerged`: add the person id to `mergedPeople`
(`new Set([...prev.appliedChanges.mergedPeople, personId])`) and persist the
new applied changes. -/
def markClustersMerged (s : AckUiState) (personId : ℕ) : AckUiState :=
  let newChanges := { s.appliedChanges with
    mergedPeople := jsSetAdd s.appliedChanges.mergedPeople personId }
  { s with
    appliedChanges := newChanges
    appliedChangesStore := saveAppliedChanges newChanges }

/-- Context action `markClusterFixed`: add the cluster id to `fixedClusters`
and persist the new applied changes. -/
def markClusterFixed (s : AckUiState) (clusterId : String) : AckUiState :=
  let newChanges := { s.appliedChanges with
    fixedClusters := jsSetAddStr s.appliedChanges.fixedClusters clusterId }
  { s with
    appliedChanges := newChanges
    appliedChangesStore := saveAppliedChanges newChanges }

/-- MergeClusters `markAsMerged`: acknowledge one candidate and drop it from
the local selection. -/
def markAsMerged (s : AckUiState) (personId : ℕ) : AckUiState :=
  let s1 := markClustersMerged s personId
  { s1 with mergeSelectedIds := jsSetDelete s1.mergeSelectedIds personId }

/-- MergeClusters `markSelectedAsMerged`: acknowledge every selected candidate
(`selectedIds.forEach`, insertion order) and clear the selection. -/
def markSelectedAsMerged (s : AckUiState) : AckUiState :=
  let s1 := s.mergeSelectedIds.foldl markClustersMerged s
  { s1 with mergeSelectedIds := [] }

/-- FixIssues `markAsFixed`. -/
def markAsFixed (s : AckUiState) (clusterId : String) : AckUiState :=
  let s1 := markClusterFixed s clusterId
  { s1 with fixSelectedIds := jsSetDeleteStr s1.fixSelectedIds clusterId }

/-- FixIssues `markSelectedAsFixed`. -/
def markSelectedAsFixed (s : AckUiState) : AckUiState :=
  let s1 := s.fixSelectedIds.foldl markClusterFixed s
  { s1 with fixSelectedIds := [] }

lemma foldl_markClustersMerged (l : List ℕ) :
    ∀ s : AckUiState,
      (∀ p, p ∈ (l.foldl markClustersMerged s).appliedChanges.mergedPeople ↔
          p ∈ s.appliedChanges.mergedPeople ∨ p ∈ l)
      ∧ (l.foldl markClustersMerged s).appliedChanges.renamedClusters =
          s.appliedChanges.renamedClusters
      ∧ (l.foldl markClustersMerged s).appliedChanges.assignedPeople =
          s.appliedChanges.assignedPeople
      ∧ (l.foldl markClustersMerged s).appliedChanges.fixedClusters =
          s.appliedChanges.fixedClusters
      ∧ (l.foldl markClustersMerged s).mergeSelectedIds = s.mergeSelectedIds
      ∧ (l.foldl markClustersMerged s).fixSelectedIds = s.fixSelectedIds
      ∧ (l.foldl markClustersMerged s).remoteCalls = s.remoteCalls := by
  induction l with
  | nil =>
    intro s
    refine ⟨?_, rfl, rfl, rfl, rfl, rfl, rfl⟩
    intro p
    simp
  | cons a t ih =>
    intro s
    obtain ⟨h1, h2, h3, h4, h5, h6, h7⟩ := ih (markClustersMerged s a)
    rw [List.foldl_cons]
    refine ⟨?_, by rw [h2]; rfl, by rw [h3]; rfl, by rw [h4]; rfl,
      by rw [h5]; rfl, by rw [h6]; rfl, by rw [h7]; rfl⟩
    intro p
    rw [h1]
    show p ∈ jsSetAdd s.appliedChanges.mergedPeople a ∨ p ∈ t ↔ _
    rw [mem_jsSetAdd]
    simp only [List.mem_cons]
    tauto

lemma foldl_markClusterFixed (l : List String) :
    ∀ s : AckUiState,
      (∀ x, x ∈ (l.foldl markClusterFixed s).appliedChanges.fixedClusters ↔
          x ∈ s.appliedChanges.fixedClusters ∨ x ∈ l)
      ∧ (l.foldl markClusterFixed s).appliedChanges.renamedClusters =
          s.appliedChanges.renamedClusters
      ∧ (l.foldl markClusterFixed s).appliedChanges.assignedPeople =
          s.appliedChanges.assignedPeople
      ∧ (l.foldl markClusterFixed s).appliedChanges.mergedPeople =
          s.appliedChanges.mergedPeople
      ∧ (l.foldl markClusterFixed s).mergeSelectedIds = s.mergeSelectedIds
      ∧ (l.foldl markClusterFixed s).fixSelectedIds = s.fixSelectedIds
      ∧ (l.foldl markClusterFixed s).remoteCalls = s.remoteCalls := by
  induction l with
  | nil =>
    intro s
    refine ⟨?_, rfl, rfl, rfl, rfl, rfl, rfl⟩
    intro x
    simp
  | cons a t ih =>
    intro s
    obtain ⟨h1, h2, h3, h4, h5, h6, h7⟩ := ih (markClusterFixed s a)
    rw [List.foldl_cons]
    refine ⟨?_, by rw [h2]; rfl, by rw [h3]; rfl, by rw [h4]; rfl,
      by rw [h5]; rfl, by rw [h6]; rfl, by rw [h7]; rfl⟩
    intro x
    rw [h1]
    show x ∈ jsSetAddStr s.appliedChanges.fixedClusters a ∨ x ∈ t ↔ _
    rw [mem_jsSetAddStr]
    simp only [List.mem_cons]
    tauto

/-- C7: marking merge candidates or validation issues as done performs no
remote call — the remote-call trace is untouched — and only adds the id(s) to
the corresponding applied-changes set (persisting that bookkeeping) and
updates that tab's selection; every other applied-changes set and the other
tab's selection are unchanged. -/
theorem markDone_is_local_bookkeeping (s : AckUiState) (personId : ℕ)
    (clusterId : String) :
    ((markAsMerged s personId).appliedChanges.mergedPeople =
        jsSetAdd s.appliedChanges.mergedPeople personId
      ∧ (∀ p, p ∈ (markAsMerged s personId).appliedChanges.mergedPeople ↔
          p ∈ s.appliedChanges.mergedPeople ∨ p = personId)
      ∧ (markAsMerged s personId).mergeSelectedIds =
          jsSetDelete s.mergeSelectedIds personId
      ∧ (markAsMerged s personId).remoteCalls = s.remoteCalls
      ∧ (markAsMerged s personId).appliedChanges.renamedClusters =
          s.appliedChanges.renamedClusters
      ∧ (markAsMerged s personId).appliedChanges.assignedPeople =
          s.appliedChanges.assignedPeople
      ∧ (markAsMerged s personId).appliedChanges.fixedClusters =
          s.appliedChanges.fixedClusters
      ∧ (markAsMerged s personId).fixSelectedIds = s.fixSelectedIds
      ∧ (markAsMerged s personId).appliedChangesStore =
          saveAppliedChanges (markAsMerged s personId).appliedChanges)
    ∧ ((∀ p, p ∈ (markSelectedAsMerged s).appliedChanges.mergedPeople ↔
          p ∈ s.appliedChanges.mergedPeople ∨ p ∈ s.mergeSelectedIds)
      ∧ (markSelectedAsMerged s).mergeSelectedIds = []
      ∧ (markSelectedAsMerged s).remoteCalls = s.remoteCalls
      ∧ (markSelectedAsMerged s).appliedChanges.renamedClusters =
          s.appliedChanges.renamedClusters
      ∧ (markSelectedAsMerged s).appliedChanges.assignedPeople =
          s.appliedChanges.assignedPeople
      ∧ (markSelectedAsMerged s).appliedChanges.fixedClusters =
          s.appliedChanges.fixedClusters
      ∧ (markSelectedAsMerged s).fixSelectedIds = s.fixSelectedIds)
    ∧ ((markAsFixed s clusterId).appliedChanges.fixedClusters =
        jsSetAddStr s.appliedChanges.fixedClusters clusterId
      ∧ (∀ x, x ∈ (markAsFixed s clusterId).appliedChanges.fixedClusters ↔
          x ∈ s.appliedChanges.fixedClusters ∨ x = clusterId)
      ∧ (markAsFixed s clusterId).fixSelectedIds =
          jsSetDeleteStr s.fixSelectedIds clusterId
      ∧ (markAsFixed s clusterId).remoteCalls = s.remoteCalls
      ∧ (markAsFixed s clusterId).appliedChanges.renamedClusters =
          s.appliedChanges.renamedClusters
      ∧ (markAsFixed s clusterId).appliedChanges.assignedPeople =
          s.appliedChanges.assignedPeople
      ∧ (markAsFixed s clusterId).appliedChanges.mergedPeople =
          s.appliedChanges.mergedPeople
      ∧ (markAsFixed s clusterId).mergeSelectedIds = s.mergeSelectedIds
      ∧ (markAsFixed s clusterId).appliedChangesStore =
          saveAppliedChanges (markAsFixed s clusterId).appliedChanges)
    ∧ ((∀ x, x ∈ (markSelectedAsFixed s).appliedChanges.fixedClusters ↔
          x ∈ s.appliedChanges.fixedClusters ∨ x ∈ s.fixSelectedIds)
      ∧ (markSelectedAsFixed s).fixSelectedIds = []
      ∧ (markSelectedAsFixed s).remoteCalls = s.remoteCalls
      ∧ (markSelectedAsFixed s).appliedChanges.renamedClusters =
          s.appliedChanges.renamedClusters
      ∧ (markSelectedAsFixed s).appliedChanges.assignedPeople =
          s.appliedChanges.assignedPeople
      ∧ (markSelectedAsFixed s).appliedChanges.mergedPeople =
          s.appliedChanges.mergedPeople
      ∧ (markSelectedAsFixed s).mergeSelectedIds = s.mergeSelectedIds) := by
  obtain ⟨hm1, hm2, hm3, hm4, hm5, hm6, hm7⟩ :=
    foldl_markClustersMerged s.mergeSelectedIds s
  obtain ⟨hf1, hf2, hf3, hf4, hf5, hf6, hf7⟩ :=
    foldl_markClusterFixed s.fixSelectedIds s
  refine ⟨⟨rfl, ?_, rfl, rfl, rfl, rfl, rfl, rfl, rfl⟩,
    ⟨hm1, rfl, hm7, hm2, hm3, hm4, hm6⟩,
    ⟨rfl, ?_, rfl, rfl, rfl, rfl, rfl, rfl, rfl⟩,
    ⟨hf1, rfl, hf7, hf2, hf3, hf4, hf5⟩⟩
  · intro p
    exact mem_jsSetAdd _ _ _
  · intro x
    exact mem_jsSetAddStr _ _ _

/-- `HistogramData` in `types.ts`. -/
structure HistogramData where
  bins : List ℚ
  counts : List ℕ
  edges : List ℚ
deriving DecidableEq

/-- `PercentileData` in `types.ts`. -/
structure PercentileData where
  p5 : ℚ
  p25 : ℚ
  p50 : ℚ
  p75 : ℚ
  p95 : ℚ
  min : ℚ
  max : ℚ
  mean : ℚ
deriving DecidableEq

/-- `CumulativeData` in `types.ts`. -/
structure CumulativeData where
  thresholds : List ℚ
  percent_above : Option (List ℚ)
  percent_below : Option (List ℚ)
deriving DecidableEq

/-- The `{ iou, center_dist }` pair of histogram bundles. -/
structure HistogramPair where
  iou : HistogramData
  center_dist : HistogramData
deriving DecidableEq

/-- The `{ iou, center_dist }` pair of percentile bundles. -/
structure PercentilePair where
  iou : PercentileData
  center_dist : PercentileData
deriving DecidableEq

/-- `suggested_thresholds` of the analytics payload. -/
structure SuggestedThresholds where
  iou : ℚ
  center_dist : ℚ
deriving DecidableEq

/-- The `{ iou, center_dist }` pair of cumulative-retention bundles. -/
structure CumulativePair where
  iou : CumulativeData
  center_dist : CumulativeData
deriving DecidableEq

/-- `UnclusteredFacePreview` in `types.ts`. -/
structure UnclusteredFacePreview where
  immich_face_id : String
  immich_asset_id : String
  filename : String
  iou : ℚ
  center_dist : ℚ
  ms_rect_x1 : Option ℚ
  ms_rect_y1 : Option ℚ
  ms_rect_x2 : Option ℚ
  ms_rect_y2 : Option ℚ
  immich_rect_x1 : Option ℚ
  immich_rect_y1 : Option ℚ
  immich_rect_x2 : Option ℚ
  immich_rect_y2 : Option ℚ
deriving DecidableEq

/-- `PersonApplyPreview` in `types.ts`. -/
structure PersonApplyPreview where
  ms_person_id : ℕ
  ms_person_name : String
  existing_immich_person_id : Option String
  existing_immich_person_name : Option String
  needs_person_creation : Bool
  face_count : ℕ
  total_faces_in_ms_photos : ℕ
  avg_iou : ℚ
  faces : List UnclusteredFacePreview
  sample_filenames : List String
deriving DecidableEq

/-- Severity of a `ClusterIssue`. -/
inductive IssueSeverity
  | error
  | warning
  | ok
deriving DecidableEq

/-- Per-person support entry of a `ClusterIssue`. -/
structure MsPeopleMatched where
  person_id : ℕ
  person_name : String
  face_count : ℕ
deriving DecidableEq

/-- `ClusterIssue` in `types.ts`. -/
structure ClusterIssue where
  immich_cluster_id : String
  immich_cluster_name : Option String
  total_faces_in_cluster : ℕ
  matched_faces : ℕ
  ms_people_matched : List MsPeopleMatched
  severity : IssueSeverity
  sample_photos : List String
deriving DecidableEq

/-- `MergeClusterInfo` in `types.ts`. -/
structure MergeClusterInfo where
  cluster_id : String
  cluster_name : Option String
  matched_faces : ℕ
  total_faces : ℕ
deriving DecidableEq

/-- `MergeCandidate` in `types.ts`. -/
structure MergeCandidate where
  ms_person_id : ℕ
  ms_person_name : String
  total_ms_faces : ℕ
  immich_clusters : List MergeClusterInfo
  confidence : ℚ
deriving DecidableEq

/-- Flat `result.stats` block of the consolidated `runFullAnalysis` response. -/
structure ResultStats where
  total_raw_matches : ℕ
  common_photos : ℕ
  ms_people_count : ℕ
  immich_clusters_count : ℕ
  total_matches : ℕ
  applicable_matches : ℕ
  high_confidence : ℕ
  medium_confidence : ℕ
  low_confidence : ℕ
  total_unclustered_faces : ℕ
  people_with_unclustered_matches : ℕ
  clusters_with_issues : ℕ
  validation_errors : ℕ
  validation_warnings : ℕ
  people_with_split_clusters : ℕ
  total_clusters_to_merge : ℕ
deriving DecidableEq

/-- Consolidated `FullAnalysisResult` (nesting of the wire payload flattened:
`analytics.*`, `matches.*`, `unclustered.previews`, `validation.issues`,
`merge.candidates`, `stats`). -/
structure FullAnalysisResult where
  raw_matches : List RawFaceMatch
  histograms : HistogramPair
  percentiles : PercentilePair
  suggested_thresholds : SuggestedThresholds
  cumulative : CumulativePair
  all_matches : List PersonMatch
  applicable : List PersonMatch
  unclustered_previews : List PersonApplyPreview
  validation_issues : List ClusterIssue
  merge_candidates : List MergeCandidate
  stats : ResultStats
deriving DecidableEq

/-- The camelCase `stats` block kept in `MatchingState`, as assembled by
`fetchAllData` from `result.stats`. -/
structure StateStats where
  totalRawMatches : ℕ
  commonPhotos : ℕ
  msPeopleCount : ℕ
  immichClustersCount : ℕ
  totalMatches : ℕ
  applicableMatches : ℕ
  highConfidence : ℕ
  mediumConfidence : ℕ
  lowConfidence : ℕ
  totalUnclusteredFaces : ℕ
  peopleWithUnclusteredMatches : ℕ
  clustersWithIssues : ℕ
  validationErrors : ℕ
  validationWarnings : ℕ
  peopleWithSplitClusters : ℕ
  totalClustersToMerge : ℕ
deriving DecidableEq

/-- Field-by-field translation of `result.stats` done inside `fetchAllData`. -/
def stateStatsOfResult (r : ResultStats) : StateStats :=
  { totalRawMatches := r.total_raw_matches
    commonPhotos := r.common_photos
    msPeopleCount := r.ms_people_count
    immichClustersCount := r.immich_clusters_count
    totalMatches := r.total_matches
    applicableMatches := r.applicable_matches
    highConfidence := r.high_confidence
    mediumConfidence := r.medium_confidence
    lowConfidence := r.low_confidence
    totalUnclusteredFaces := r.total_unclustered_faces
    peopleWithUnclusteredMatches := r.people_with_unclustered_matches
    clustersWithIssues := r.clusters_with_issues
    validationErrors := r.validation_errors
    validationWarnings := r.validation_warnings
    peopleWithSplitClusters := r.people_with_split_clusters
    totalClustersToMerge := r.total_clusters_to_merge }

/-- `MatchingState` of `MatchingContext`, with `Date` modelled as an abstract
timestamp and the two relevant localStorage slots carried alongside. -/
structure MatchingState where
  loading : Bool
  algorithmRunning : Bool
  lastRun : Option ℕ
  error : Option String
  rawMatches : List RawFaceMatch
  histograms : Option HistogramPair
  percentiles : Option PercentilePair
  suggestedThresholds : Option SuggestedThresholds
  cumulative : Option CumulativePair
  clusterMatches : List PersonMatch
  applicableMatches : List PersonMatch
  unclusteredPreviews : List PersonApplyPreview
  validationIssues : List ClusterIssue
  mergeCandidates : List MergeCandidate
  stats : Option StateStats
  minIoU : ℚ
  maxCenterDist : ℚ
  pendingMinIoU : ℚ
  pendingMaxCenterDist : ℚ
  thresholdsDirty : Bool
  appliedChanges : AppliedChanges
  appliedChangesStore : StorageCell StoredAppliedChanges
  thresholdsStore : StorageCell StoredThresholds

/-- Success path of `fetchAllData`: the state after the consolidated endpoint
resolves — applied changes are reset and persisted only on the initial run,
`lastRun` is stamped only on the initial run, every analytics / match / bucket
field is replaced from the result, and the active and pending thresholds are
set to the requested values with `thresholdsDirty` cleared. -/
def fetchAllDataSuccess (st : MatchingState) (result : FullAnalysisResult)
    (minIoU maxCenterDist : ℚ) (isInitialRun : Bool) (now : ℕ) : MatchingState :=
  let appliedChanges :=
    if isInitialRun then emptyAppliedChanges else st.appliedChanges
  let appliedChangesStore :=
    if isInitialRun then saveAppliedChanges emptyAppliedChanges
    else st.appliedChangesStore
  { st with
    loading := false
    algorithmRunning := false
    error := none
    lastRun := if isInitialRun then some now else st.lastRun
    rawMatches := result.raw_matches
    histograms := some result.histograms
    percentiles := some result.percentiles
    suggestedThresholds := some result.suggested_thresholds
    cumulative := some result.cumulative
    clusterMatches := result.all_matches
    applicableMatches := result.applicable
    unclusteredPreviews := result.unclustered_previews
    validationIssues := result.validation_issues
    mergeCandidates := result.merge_candidates
    stats := some (stateStatsOfResult result.stats)
    minIoU := minIoU
    maxCenterDist := maxCenterDist
    pendingMinIoU := minIoU
    pendingMaxCenterDist := maxCenterDist
    thresholdsDirty := false
    appliedChanges := appliedChanges
    appliedChangesStore := appliedChangesStore }

/-- `runAlgorithm`: fetch at the pending thresholds with `isInitialRun = true`. -/
def runAlgorithm (st : MatchingState) (result : FullAnalysisResult) (now : ℕ) :
    MatchingState :=
  fetchAllDataSuccess st result st.pendingMinIoU st.pendingMaxCenterDist true now

/-- `applyThresholds`: persist the pending thresholds, then fetch at them with
`isInitialRun = false`. -/
def applyThresholds (st : MatchingState) (result : FullAnalysisResult) (now : ℕ) :
    MatchingState :=
  let st1 := { st with
    thresholdsStore := saveThresholds st.pendingMinIoU st.pendingMaxCenterDist }
  fetchAllDataSuccess st1 result st.pendingMinIoU st.pendingMaxCenterDist false now

/-- C9: a successful `runAlgorithm` resets all four applied-changes sets to
empty and persists that reset, while a successful `applyThresholds` leaves the
applied changes and their persisted copy untouched, replaces the match,
statistics and bucket fields from the result, and sets
`minIoU` / `maxCenterDist` to the pending values with `thresholdsDirty`
cleared (and `lastRun` unchanged). -/
theorem runAlgorithm_resets_applyThresholds_preserves (st : MatchingState)
    (result : FullAnalysisResult) (now : ℕ) :
    ((runAlgorithm st result now).appliedChanges = emptyAppliedChanges
      ∧ (runAlgorithm st result now).appliedChanges.renamedClusters = []
      ∧ (runAlgorithm st result now).appliedChanges.assignedPeople = []
      ∧ (runAlgorithm st result now).appliedChanges.mergedPeople = []
      ∧ (runAlgorithm st result now).appliedChanges.fixedClusters = []
      ∧ (runAlgorithm st result now).appliedChangesStore =
          saveAppliedChanges emptyAppliedChanges
      ∧ loadAppliedChanges (runAlgorithm st result now).appliedChangesStore =
          emptyAppliedChanges
      ∧ (runAlgorithm st result now).lastRun = some now)
    ∧ ((applyThresholds st result now).appliedChanges = st.appliedChanges
      ∧ (applyThresholds st result now).appliedChangesStore = st.appliedChangesStore
      ∧ (applyThresholds st result now).lastRun = st.lastRun
      ∧ (applyThresholds st result now).rawMatches = result.raw_matches
      ∧ (applyThresholds st result now).histograms = some result.histograms
      ∧ (applyThresholds st result now).percentiles = some result.percentiles
      ∧ (applyThresholds st result now).suggestedThresholds =
          some result.suggested_thresholds
      ∧ (applyThresholds st result now).cumulative = some result.cumulative
      ∧ (applyThresholds st result now).clusterMatches = result.all_matches
      ∧ (applyThresholds st result now).applicableMatches = result.applicable
      ∧ (applyThresholds st result now).unclusteredPreviews =
          result.unclustered_previews
      ∧ (applyThresholds st result now).validationIssues = result.validation_issues
      ∧ (applyThresholds st result now).mergeCandidates = result.merge_candidates
      ∧ (applyThresholds st result now).stats = some (stateStatsOfResult result.stats)
      ∧ (applyThresholds st result now).minIoU = st.pendingMinIoU
      ∧ (applyThresholds st result now).maxCenterDist = st.pendingMaxCenterDist
      ∧ (applyThresholds st result now).pendingMinIoU = st.pendingMinIoU
      ∧ (applyThresholds st result now).pendingMaxCenterDist = st.pendingMaxCenterDist
      ∧ (applyThresholds st result now).thresholdsDirty = false
      ∧ (applyThresholds st result now).thresholdsStore =
          saveThresholds st.pendingMinIoU st.pendingMaxCenterDist) :=
  ⟨⟨rfl, rfl, rfl, rfl, rfl, rfl, rfl, rfl⟩,
   ⟨rfl, rfl, rfl, rfl, rfl, rfl, rfl, rfl, rfl, rfl, rfl, rfl, rfl, rfl, rfl,
    rfl, rfl, rfl, rfl, rfl⟩⟩

/-- JS `Math.round` on the nonnegative reals: half-up rounding,
`⌊q + 1/2⌋`. -/
def jsRound (q : ℚ) : ℤ :=
  ⌊q + 1/2⌋

/-- `UnrecognizedFacePreview` in `types.ts`: normalized MS-Photos rectangle
plus the image's pixel dimensions. -/
structure UnrecognizedFacePreview where
  immich_asset_id : String
  filename : String
  ms_rect_x1 : ℚ
  ms_rect_y1 : ℚ
  ms_rect_x2 : ℚ
  ms_rect_y2 : ℚ
  image_width : ℕ
  image_height : ℕ
deriving DecidableEq

/-- CreateFaces `rectToPixels`: convert the normalized rectangle to pixel
coordinates `(x, y, width, height)`. -/
def rectToPixels (face : UnrecognizedFacePreview) : ℤ × ℤ × ℤ × ℤ :=
  (jsRound (face.ms_rect_x1 * (face.image_width : ℚ)),
   jsRound (face.ms_rect_y1 * (face.image_height : ℚ)),
   jsRound ((face.ms_rect_x2 - face.ms_rect_x1) * (face.image_width : ℚ)),
   jsRound ((face.ms_rect_y2 - face.ms_rect_y1) * (face.image_height : ℚ)))

/-- Face item placed in a `createFaces` request body:
`{ asset_id, ...rectToPixels(f), image_width, image_height }`. -/
def createFaceItemOf (face : UnrecognizedFacePreview) : CreateFaceItem :=
  { asset_id := face.immich_asset_id
    x := (rectToPixels face).1
    y := (rectToPixels face).2.1
    width := (rectToPixels face).2.2.1
    height := (rectToPixels face).2.2.2
    image_width := face.image_width
    image_height := face.image_height }

/-- `UnrecognizedPersonPreview` in `types.ts`. -/
structure UnrecognizedPersonPreview where
  ms_person_id : ℕ
  ms_person_name : String
  existing_immich_person_id : Option String
  existing_immich_person_name : Option String
  needs_person_creation : Bool
  face_count : ℕ
  total_faces_in_ms_photos : ℕ
  faces : List UnrecognizedFacePreview
  sample_filenames : List String
deriving DecidableEq

/-- Body of the `createFaces` request. -/
structure CreateFacesRequest where
  ms_person_id : ℕ
  ms_person_name : String
  faces : List CreateFaceItem
  dry_run : Bool
deriving DecidableEq

/-- The request assembled by CreateFaces `applySingle` for a person preview. -/
def createFacesRequestOf (preview : UnrecognizedPersonPreview) : CreateFacesRequest :=
  { ms_person_id := preview.ms_person_id
    ms_person_name := preview.ms_person_name
    faces := preview.faces.map createFaceItemOf
    dry_run := false }

lemma jsRound_nonneg {a : ℚ} (ha : 0 ≤ a) : 0 ≤ jsRound a := by
  rw [jsRound]
  rw [Int.le_floor]
  push_cast
  linarith

lemma jsRound_pair_le {a b : ℚ} {n : ℕ} (hab : a + b ≤ (n : ℚ)) :
    jsRound a + jsRound b ≤ (n : ℤ) + 1 := by
  have h1 : jsRound a + jsRound b ≤ ⌊(a + 1/2) + (b + 1/2)⌋ := by
    rw [jsRound, jsRound, Int.le_floor]
    push_cast
    have := Int.floor_le (a + 1/2)
    have := Int.floor_le (b + 1/2)
    linarith
  have h2 : (a + 1/2) + (b + 1/2) = (a + b) + 1 := by ring
  rw [h2, Int.floor_add_one] at h1
  have h3 : ⌊a + b⌋ ≤ (n : ℤ) := by
    calc ⌊a + b⌋ ≤ ⌊(n : ℚ)⌋ := Int.floor_le_floor hab
    _ = (n : ℤ) := Int.floor_natCast n
  omega

/-- C8 counterexample: the claim that the pixel rectangle always lies within
the image bounds fails — for the face `(x1, y1, x2, y2) = (1/2, 1/2, 1, 1)` on
a 5×5 image the precondition `0 ≤ x1 < x2 ≤ 1 ∧ 0 ≤ y1 < y2 ≤ 1` holds, yet
half-up rounding gives `x = 3` and `width = 3`, so `x + width = 6 > 5`. -/
theorem rectToPixels_bounds_counterexample :
    (0 ≤ (⟨"a1", "p.jpg", 1/2, 1/2, 1, 1, 5, 5⟩ :
          UnrecognizedFacePreview).ms_rect_x1
      ∧ (⟨"a1", "p.jpg", 1/2, 1/2, 1, 1, 5, 5⟩ :
          UnrecognizedFacePreview).ms_rect_x1 <
        (⟨"a1", "p.jpg", 1/2, 1/2, 1, 1, 5, 5⟩ :
          UnrecognizedFacePreview).ms_rect_x2
      ∧ (⟨"a1", "p.jpg", 1/2, 1/2, 1, 1, 5, 5⟩ :
          UnrecognizedFacePreview).ms_rect_x2 ≤ 1
      ∧ 0 ≤ (⟨"a1", "p.jpg", 1/2, 1/2, 1, 1, 5, 5⟩ :
          UnrecognizedFacePreview).ms_rect_y1
      ∧ (⟨"a1", "p.jpg", 1/2, 1/2, 1, 1, 5, 5⟩ :
          UnrecognizedFacePreview).ms_rect_y1 <
        (⟨"a1", "p.jpg", 1/2, 1/2, 1, 1, 5, 5⟩ :
          UnrecognizedFacePreview).ms_rect_y2
      ∧ (⟨"a1", "p.jpg", 1/2, 1/2, 1, 1, 5, 5⟩ :
          UnrecognizedFacePreview).ms_rect_y2 ≤ 1)
    ∧ (createFaceItemOf (⟨"a1", "p.jpg", 1/2, 1/2, 1, 1, 5, 5⟩ :
          UnrecognizedFacePreview)).x = 3
    ∧ (createFaceItemOf (⟨"a1", "p.jpg", 1/2, 1/2, 1, 1, 5, 5⟩ :
          UnrecognizedFacePreview)).width = 3
    ∧ ¬ ((createFaceItemOf (⟨"a1", "p.jpg", 1/2, 1/2, 1, 1, 5, 5⟩ :
            UnrecognizedFacePreview)).x
          + (createFaceItemOf (⟨"a1", "p.jpg", 1/2, 1/2, 1, 1, 5, 5⟩ :
            UnrecognizedFacePreview)).width
        ≤ ((⟨"a1", "p.jpg", 1/2, 1/2, 1, 1, 5, 5⟩ :
            UnrecognizedFacePreview).image_width : ℤ)) := by
  have hx : (createFaceItemOf (⟨"a1", "p.jpg", 1/2, 1/2, 1, 1, 5, 5⟩ :
      UnrecognizedFacePreview)).x = 3 := by
    show jsRound ((1/2 : ℚ) * ((5 : ℕ) : ℚ)) = 3
    rw [jsRound]
    have h : (1/2 : ℚ) * ((5 : ℕ) : ℚ) + 1/2 = ((3 : ℤ) : ℚ) := by
      push_cast
      norm_num
    rw [h, Int.floor_intCast]
  have hw : (createFaceItemOf (⟨"a1", "p.jpg", 1/2, 1/2, 1, 1, 5, 5⟩ :
      UnrecognizedFacePreview)).width = 3 := by
    show jsRound (((1 : ℚ) - 1/2) * ((5 : ℕ) : ℚ)) = 3
    rw [jsRound]
    have h : ((1 : ℚ) - 1/2) * ((5 : ℕ) : ℚ) + 1/2 = ((3 : ℤ) : ℚ) := by
      push_cast
      norm_num
    rw [h, Int.floor_intCast]
  refine ⟨⟨by norm_num, by norm_num, by norm_num, by norm_num, by norm_num,
    by norm_num⟩, hx, hw, ?_⟩
  rw [hx, hw]
  norm_num

/-- C8 (amended): every `createFaces` request built by the CreateFaces tab
carries, per face, the pixel coordinates `x = round(x1·W)`,
`y = round(y1·H)`, `width = round((x2−x1)·W)`, `height = round((y2−y1)·H)`
together with `image_width = W` and `image_height = H`; under the
precondition `0 ≤ x1 < x2 ≤ 1` and `0 ≤ y1 < y2 ≤ 1` the pixel rectangle has
nonnegative origin and extent and exceeds the image bounds by at most one
pixel per axis (`x + width ≤ W + 1`, `y + height ≤ H + 1`) — half-up rounding
makes the exact bound `x + width ≤ W` unattainable in general. -/
theorem createFaces_pixel_translation (preview : UnrecognizedPersonPreview) :
    (createFacesRequestOf preview).ms_person_id = preview.ms_person_id
    ∧ (createFacesRequestOf preview).ms_person_name = preview.ms_person_name
    ∧ (createFacesRequestOf preview).dry_run = false
    ∧ (∀ item ∈ (createFacesRequestOf preview).faces,
        ∃ face ∈ preview.faces,
          item.asset_id = face.immich_asset_id
          ∧ item.x = jsRound (face.ms_rect_x1 * (face.image_width : ℚ))
          ∧ item.y = jsRound (face.ms_rect_y1 * (face.image_height : ℚ))
          ∧ item.width =
              jsRound ((face.ms_rect_x2 - face.ms_rect_x1) * (face.image_width : ℚ))
          ∧ item.height =
              jsRound ((face.ms_rect_y2 - face.ms_rect_y1) * (face.image_height : ℚ))
          ∧ item.image_width = face.image_width
          ∧ item.image_height = face.image_height)
    ∧ (∀ face : UnrecognizedFacePreview,
        0 ≤ face.ms_rect_x1 → face.ms_rect_x1 < face.ms_rect_x2 →
        face.ms_rect_x2 ≤ 1 → 0 ≤ face.ms_rect_y1 →
        face.ms_rect_y1 < face.ms_rect_y2 → face.ms_rect_y2 ≤ 1 →
        0 ≤ (createFaceItemOf face).x
        ∧ 0 ≤ (createFaceItemOf face).y
        ∧ 0 ≤ (createFaceItemOf face).width
        ∧ 0 ≤ (createFaceItemOf face).height
        ∧ (createFaceItemOf face).x + (createFaceItemOf face).width ≤
            (face.image_width : ℤ) + 1
        ∧ (createFaceItemOf face).y + (createFaceItemOf face).height ≤
            (face.image_height : ℤ) + 1) := by
  refine ⟨rfl, rfl, rfl, ?_, ?_⟩
  · intro item hitem
    obtain ⟨face, hface, rfl⟩ := List.mem_map.mp hitem
    exact ⟨face, hface, rfl, rfl, rfl, rfl, rfl, rfl, rfl⟩
  · intro face hx1 hx12 hx2 hy1 hy12 hy2
    have hWnn : (0 : ℚ) ≤ (face.image_width : ℚ) := by positivity
    have hHnn : (0 : ℚ) ≤ (face.image_height : ℚ) := by positivity
    refine ⟨jsRound_nonneg (mul_nonneg hx1 hWnn),
      jsRound_nonneg (mul_nonneg hy1 hHnn),
      jsRound_nonneg (mul_nonneg (by linarith) hWnn),
      jsRound_nonneg (mul_nonneg (by linarith) hHnn), ?_, ?_⟩
    · show jsRound (face.ms_rect_x1 * (face.image_width : ℚ)) +
          jsRound ((face.ms_rect_x2 - face.ms_rect_x1) * (face.image_width : ℚ)) ≤ _
      apply jsRound_pair_le
      have hsum : face.ms_rect_x1 * (face.image_width : ℚ) +
          (face.ms_rect_x2 - face.ms_rect_x1) * (face.image_width : ℚ) =
          face.ms_rect_x2 * (face.image_width : ℚ) := by ring
      rw [hsum]
      calc face.ms_rect_x2 * (face.image_width : ℚ)
          ≤ 1 * (face.image_width : ℚ) := by
            exact mul_le_mul_of_nonneg_right hx2 hWnn
        _ = (face.image_width : ℚ) := one_mul _
    · show jsRound (face.ms_rect_y1 * (face.image_height : ℚ)) +
          jsRound ((face.ms_rect_y2 - face.ms_rect_y1) * (face.image_height : ℚ)) ≤ _
      apply jsRound_pair_le
      have hsum : face.ms_rect_y1 * (face.image_height : ℚ) +
          (face.ms_rect_y2 - face.ms_rect_y1) * (face.image_height : ℚ) =
          face.ms_rect_y2 * (face.image_height : ℚ) := by ring
      rw [hsum]
      calc face.ms_rect_y2 * (face.image_height : ℚ)
          ≤ 1 * (face.image_height : ℚ) := by
            exact mul_le_mul_of_nonneg_right hy2 hHnn
        _ = (face.image_height : ℚ) := one_mul _

theorem createFaces_pixel_translation_witness :
    ((0 : ℚ) ≤ 0 ∧ (0 : ℚ) < 1 ∧ (1 : ℚ) ≤ 1)
    ∧ (0 ≤ (createFaceItemOf (⟨"a2", "q.jpg", 0, 0, 1, 1, 4, 4⟩ :
          UnrecognizedFacePreview)).x
      ∧ 0 ≤ (createFaceItemOf (⟨"a2", "q.jpg", 0, 0, 1, 1, 4, 4⟩ :
          UnrecognizedFacePreview)).y
      ∧ 0 ≤ (createFaceItemOf (⟨"a2", "q.jpg", 0, 0, 1, 1, 4, 4⟩ :
          UnrecognizedFacePreview)).width
      ∧ 0 ≤ (createFaceItemOf (⟨"a2", "q.jpg", 0, 0, 1, 1, 4, 4⟩ :
          UnrecognizedFacePreview)).height
      ∧ (createFaceItemOf (⟨"a2", "q.jpg", 0, 0, 1, 1, 4, 4⟩ :
          UnrecognizedFacePreview)).x +
          (createFaceItemOf (⟨"a2", "q.jpg", 0, 0, 1, 1, 4, 4⟩ :
            UnrecognizedFacePreview)).width ≤
          (((⟨"a2", "q.jpg", 0, 0, 1, 1, 4, 4⟩ :
            UnrecognizedFacePreview).image_width : ℤ)) + 1
      ∧ (createFaceItemOf (⟨"a2", "q.jpg", 0, 0, 1, 1, 4, 4⟩ :
          UnrecognizedFacePreview)).y +
          (createFaceItemOf (⟨"a2", "q.jpg", 0, 0, 1, 1, 4, 4⟩ :
            UnrecognizedFacePreview)).height ≤
          (((⟨"a2", "q.jpg", 0, 0, 1, 1, 4, 4⟩ :
            UnrecognizedFacePreview).image_height : ℤ)) + 1) :=
  ⟨⟨le_refl 0, one_pos, le_refl 1⟩,
    (createFaces_pixel_translation
        ⟨9, "Hana", none, none, true, 1, 1,
          [⟨"a2", "q.jpg", 0, 0, 1, 1, 4, 4⟩], []⟩).2.2.2.2
      ⟨"a2", "q.jpg", 0, 0, 1, 1, 4, 4⟩
      (le_refl 0) one_pos (le_refl 1) (le_refl 0) one_pos (le_refl 1)⟩

end MsPhotosToImmich
